import Mathlib

/-
Verification of the emoji-replacer plugin (`src/main.ts`).

A JS string is modelled as its sequence of Unicode code points
(`for (const char of text)` in JS iterates code points, not UTF-16
units).  The Icon Shortcodes API (`iconSC`) is an oracle structure; the
`node-emoji` module and the runtime platform form an environment
record.  Fallible behaviour (thrown exceptions) is modelled in a second
embedding in terms of `Except`, faithful to the placement of the
`try`/`catch` blocks in `processTextNodes`.
-/

set_option autoImplicit false

namespace EmojiReplacer

/-- A JS string as its list of Unicode code points. -/
abbrev Str := List Nat

/-- An opaque resolved SVG graphic handle (result of `getSVGIcon`). -/
abbrev SvgIcon := Nat

/-- The Icon Shortcodes API surface used by `main.ts` (`iconSC`):
`hasIcon`, `isEmoji` and `getSVGIcon`, modelled as total functions.
The exception-aware variant is `AdapterE` below. -/
structure Adapter where
  hasIcon : Str → Bool
  isEmoji : Str → Bool
  getSVGIcon : Str → Option SvgIcon

/-- The lazily imported `node-emoji` module; of `find(char)` we keep
only the `key` field of the returned record. -/
structure EmojiModule where
  find : Nat → Option Str

/-- Runtime environment of a scan: `Platform.isMobile` and the outcome
of `await import("node-emoji")` (`none` means the dynamic import
fails). -/
structure Env where
  isMobileDevice : Bool
  emojiModule : Option EmojiModule

/-- `EmojiReplacerSettings` from `main.ts`: `customEmojiMappings` as an
association list with unique keys, plus `enableDefaultIconSearch`. -/
structure Settings where
  customEmojiMappings : List (Str × Str)
  enableDefaultIconSearch : Bool

/-- JS object lookup `customEmojiMappings[key]`. -/
def lookupMapping : List (Str × Str) → Str → Option Str
  | [], _ => none
  | (k, v) :: rest, e => if k = e then some v else lookupMapping rest e

/-- `text.indexOf(emoji)` for a single-code-point `emoji`, with the
index counted in code points (none of the verified claims depends on
UTF-16 unit offsets, only on the induced before/after split, which is
identical). -/
def indexOfCP : Str → Nat → Option Nat
  | [], _ => none
  | c :: rest, e => if c = e then some 0 else (indexOfCP rest e).map (· + 1)

/-- `replaceTextWithIcon` (main.ts 36-55): locate the first occurrence
of `emoji` in the leaf's text, split the text into before/after, and
replace the leaf by the three nodes `[before, svg, after]`.  Returns
`none` when the emoji is not found (the JS function returns `false`);
the parent node always exists in this model. -/
def replaceTextWithIcon (text : Str) (emoji : Nat) (svg : SvgIcon) :
    Option (Str × SvgIcon × Str) :=
  match indexOfCP text emoji with
  | none => none
  | some i => some (text.take i, svg, text.drop (i + 1))

/-- The custom-mapping path for one scanned code point (main.ts 62-72).
`if (this.settings.customEmojiMappings[char])` is a JS truthiness
test, so a mapping whose icon id is the empty string behaves like an
absent mapping. -/
def tryCustom (S : Settings) (A : Adapter) (text : Str) (c : Nat) :
    Option (Str × SvgIcon × Str) :=
  match lookupMapping S.customEmojiMappings [c] with
  | none => none
  | some iconId =>
    if iconId = [] then none
    else if A.hasIcon iconId then
      match A.getSVGIcon iconId with
      | some svg => replaceTextWithIcon text c svg
      | none => none
    else none

/-- The code points of `"luc_"`, the fixed marker prepended to the
`node-emoji` key to build the heuristic lucide icon id. -/
def lucMarker : Str := [108, 117, 99, 95]

/-- The body of the heuristic `try` block (main.ts 82-101), total
version: the lazily imported module (a failed import is `continue`),
`find`, the `luc_` id, `hasIcon`, `getSVGIcon`, and the splice. -/
def heuristicBody (A : Adapter) (env : Env) (text : Str) (c : Nat) :
    Option (Str × SvgIcon × Str) :=
  match env.emojiModule with
  | none => none
  | some m =>
    match m.find c with
    | none => none
    | some key =>
      let lucideId := lucMarker ++ key
      if A.hasIcon lucideId then
        match A.getSVGIcon lucideId with
        | some svg => replaceTextWithIcon text c svg
        | none => none
      else none

/-- The heuristic path for one scanned code point on a non-mobile run
(main.ts 80-105): guard `enableDefaultIconSearch && iconSC.isEmoji(char)`,
then the `try` block body. -/
def tryHeuristic (S : Settings) (A : Adapter) (env : Env) (text : Str) (c : Nat) :
    Option (Str × SvgIcon × Str) :=
  if S.enableDefaultIconSearch && A.isEmoji [c] then heuristicBody A env text c
  else none

/-- The `for (const char of text)` loop of `processTextNodes`
(main.ts 61-106): custom-mapping path first (`break` on success), then
the mobile `continue`, then the heuristic path (`break` on success). -/
def scanLoop (S : Settings) (A : Adapter) (env : Env) (text : Str) :
    List Nat → Option (Str × SvgIcon × Str)
  | [] => none
  | c :: rest =>
    match tryCustom S A text c with
    | some r => some r
    | none =>
      if env.isMobileDevice then scanLoop S A env text rest
      else
        match tryHeuristic S A env text c with
        | some r => some r
        | none => scanLoop S A env text rest

/-- Processing of one text leaf: scan the code points of its own
content.  `none` means the leaf is left untouched; `some (b, i, a)`
means it is replaced by text `b`, graphic `i`, text `a`. -/
def processTextLeaf (S : Settings) (A : Adapter) (env : Env) (text : Str) :
    Option (Str × SvgIcon × Str) :=
  scanLoop S A env text text

/-- A node of the rendered-output tree: a text leaf, an inserted SVG
graphic, or an element with ordered children. -/
inductive DomNode where
  | text (s : Str)
  | graphic (i : SvgIcon)
  | elem (children : List DomNode)

mutual

/-- `processTextNodes` (main.ts 58-113): a text leaf is either left in
place or replaced by `[before, graphic, after]` among its siblings; a
non-text node has its children (snapshot via `Array.from`) processed
once each, in order.  The freshly inserted nodes are not in the
snapshot, hence not rescanned in the same pass. -/
def processNode (S : Settings) (A : Adapter) (env : Env) : DomNode → List DomNode
  | .text s =>
    match processTextLeaf S A env s with
    | none => [.text s]
    | some (b, i, a) => [.text b, .graphic i, .text a]
  | .graphic i => [.graphic i]
  | .elem cs => [.elem (processChildren S A env cs)]

/-- The `for (const child of Array.from(node.childNodes))` loop. -/
def processChildren (S : Settings) (A : Adapter) (env : Env) :
    List DomNode → List DomNode
  | [] => []
  | n :: rest => processNode S A env n ++ processChildren S A env rest

end

/-- Scanning restricted to the custom-mapping path: what remains of the
loop body (main.ts 61-77) when every heuristic branch is unreachable.
Used to state that mobile runs and flag-off runs are custom-only. -/
def customOnlyScanLoop (S : Settings) (A : Adapter) (text : Str) :
    List Nat → Option (Str × SvgIcon × Str)
  | [] => none
  | c :: rest =>
    match tryCustom S A text c with
    | some r => some r
    | none => customOnlyScanLoop S A text rest

/-- Custom-mappings-only processing of one text leaf. -/
def customOnlyLeaf (S : Settings) (A : Adapter) (text : Str) :
    Option (Str × SvgIcon × Str) :=
  customOnlyScanLoop S A text text

/-- The scanned code point `c` causes a substitution when the scan loop
of `processTextNodes` reaches it inside `text`. -/
def charSubstitutes (S : Settings) (A : Adapter) (env : Env) (text : Str) (c : Nat) :
    Prop :=
  tryCustom S A text c ≠ none ∨
    (env.isMobileDevice = false ∧ tryHeuristic S A env text c ≠ none)

instance (S : Settings) (A : Adapter) (env : Env) (text : Str) (c : Nat) :
    Decidable (charSubstitutes S A env text c) := by
  unfold charSubstitutes
  infer_instance

/-- Recognizer for graphic nodes, to count substitutions in an output. -/
def isGraphicNode : DomNode → Bool
  | .graphic _ => true
  | _ => false

/-- User-facing notices of the add-mapping click handler
(main.ts 370-394). -/
inductive UINotice where
  | bothFieldsRequired
  | invalidEmoji
  | multipleEmoji
deriving DecidableEq

/-- Outcome of the add-mapping click handler: the settings afterwards,
the notice shown (if any), and whether `saveSettings` persisted. -/
structure AddOutcome where
  settings : Settings
  notice : Option UINotice
  persisted : Bool

/-- The single-emoji loop of the handler (main.ts 384-395): walk the
input by code points; on the second code point that `isEmoji` accepts,
reject.  Returns `true` when the rejection fires. -/
def multiEmojiCheck (A : Adapter) : List Nat → Bool → Bool
  | [], _ => false
  | c :: rest, foundEmoji =>
    if A.isEmoji [c] then
      if foundEmoji then true else multiEmojiCheck A rest true
    else multiEmojiCheck A rest foundEmoji

/-- JS object assignment `customEmojiMappings[emoji] = iconId`: update
in place when the key exists, append otherwise. -/
def insertMapping : List (Str × Str) → Str → Str → List (Str × Str)
  | [], e, v => [(e, v)]
  | (k, w) :: rest, e, v =>
    if k = e then (k, v) :: rest else (k, w) :: insertMapping rest e v

/-- The Add-mapping click handler (main.ts 366-407): empty-field check,
whole-input `isEmoji` check, single-emoji loop, then mutation of the
mapping table followed by `saveSettings`.  Each reject branch returns
before mutating, so nothing is persisted there. -/
def addMappingAction (S : Settings) (A : Adapter) (emoji iconId : Str) : AddOutcome :=
  if emoji = [] ∨ iconId = [] then ⟨S, some .bothFieldsRequired, false⟩
  else if A.isEmoji emoji = false then ⟨S, some .invalidEmoji, false⟩
  else if multiEmojiCheck A emoji false then ⟨S, some .multipleEmoji, false⟩
  else
    ⟨{ S with customEmojiMappings := insertMapping S.customEmojiMappings emoji iconId },
      none, true⟩

/-- The add-mapping action rejected its input: the settings are
unchanged, a notice was shown, and nothing was persisted. -/
def addRejected (S : Settings) (A : Adapter) (emoji iconId : Str) : Prop :=
  (addMappingAction S A emoji iconId).settings = S ∧
  (addMappingAction S A emoji iconId).notice.isSome = true ∧
  (addMappingAction S A emoji iconId).persisted = false

/-- Result of `onload`'s layout-ready callback (main.ts 27-33 and
115-119): either the markdown post-processor is registered, or the
missing-dependency modal is opened (once, since `onLayoutReady` fires
once) and the callback returns before registering anything. -/
structure LoadOutcome where
  processor : Option (DomNode → List DomNode)
  modalShownCount : Nat

/-- The layout-ready callback: `getApi()` result in, registration or
modal out. -/
def onloadRegister (S : Settings) (env : Env) (iconApi : Option Adapter) :
    LoadOutcome :=
  match iconApi with
  | none => ⟨none, 1⟩
  | some A => ⟨some (fun n => processNode S A env n), 0⟩

/-- One render pass of the host: it applies the registered
post-processor if there is one, and renders the node unchanged
otherwise (an unregistered processor is never invoked). -/
def renderPass (outcome : LoadOutcome) (n : DomNode) : List DomNode :=
  match outcome.processor with
  | none => [n]
  | some f => f n

/-- The Icon Shortcodes API with thrown exceptions: each call either
returns a value or throws.  `main.ts` wraps only the heuristic block
(lines 81-104) in `try`/`catch`; calls made outside it propagate. -/
structure AdapterE where
  hasIcon : Str → Except Unit Bool
  isEmoji : Str → Except Unit Bool
  getSVGIcon : Str → Except Unit (Option SvgIcon)

/-- The `node-emoji` module with a possibly throwing `find`. -/
structure EmojiModuleE where
  find : Nat → Except Unit (Option Str)

/-- Runtime environment for the exception-aware scan. -/
structure EnvE where
  isMobileDevice : Bool
  emojiModule : Option EmojiModuleE

/-- Exception-aware custom-mapping path (main.ts 62-72): this code is
not inside any `try`, so a throw from `hasIcon` or `getSVGIcon`
propagates out of the scan. -/
def tryCustomE (S : Settings) (A : AdapterE) (text : Str) (c : Nat) :
    Except Unit (Option (Str × SvgIcon × Str)) :=
  match lookupMapping S.customEmojiMappings [c] with
  | none => .ok none
  | some iconId =>
    if iconId = [] then .ok none
    else
      match A.hasIcon iconId with
      | .error e => .error e
      | .ok false => .ok none
      | .ok true =>
        match A.getSVGIcon iconId with
        | .error e => .error e
        | .ok none => .ok none
        | .ok (some svg) => .ok (replaceTextWithIcon text c svg)

/-- The body of the `try` block (main.ts 82-101).  A failed dynamic
module load is caught by the inner `catch` and turned into `continue`
(hence `.ok none` here); other throws escape to the outer `catch`. -/
def heuristicTryBlock (A : AdapterE) (env : EnvE) (text : Str) (c : Nat) :
    Except Unit (Option (Str × SvgIcon × Str)) :=
  match env.emojiModule with
  | none => .ok none
  | some m =>
    match m.find c with
    | .error e => .error e
    | .ok none => .ok none
    | .ok (some key) =>
      let lucideId := lucMarker ++ key
      match A.hasIcon lucideId with
      | .error e => .error e
      | .ok false => .ok none
      | .ok true =>
        match A.getSVGIcon lucideId with
        | .error e => .error e
        | .ok none => .ok none
        | .ok (some svg) => .ok (replaceTextWithIcon text c svg)

/-- Exception-aware heuristic path (main.ts 80-105): the guard
`enableDefaultIconSearch && iconSC.isEmoji(char)` is evaluated outside
the `try`, so a throw from `isEmoji` propagates; every throw from
inside the `try` block is caught (`console.error`) and the scan
continues with the next character. -/
def tryHeuristicE (S : Settings) (A : AdapterE) (env : EnvE) (text : Str) (c : Nat) :
    Except Unit (Option (Str × SvgIcon × Str)) :=
  if S.enableDefaultIconSearch then
    match A.isEmoji [c] with
    | .error e => .error e
    | .ok false => .ok none
    | .ok true =>
      match heuristicTryBlock A env text c with
      | .error _ => .ok none
      | .ok r => .ok r
  else .ok none

/-- Exception-aware scan loop (main.ts 61-106). -/
def scanLoopE (S : Settings) (A : AdapterE) (env : EnvE) (text : Str) :
    List Nat → Except Unit (Option (Str × SvgIcon × Str))
  | [] => .ok none
  | c :: rest =>
    match tryCustomE S A text c with
    | .error e => .error e
    | .ok (some r) => .ok (some r)
    | .ok none =>
      if env.isMobileDevice then scanLoopE S A env text rest
      else
        match tryHeuristicE S A env text c with
        | .error e => .error e
        | .ok (some r) => .ok (some r)
        | .ok none => scanLoopE S A env text rest

/-- Exception-aware processing of one text leaf. -/
def processTextLeafE (S : Settings) (A : AdapterE) (env : EnvE) (text : Str) :
    Except Unit (Option (Str × SvgIcon × Str)) :=
  scanLoopE S A env text text

/-- Projection of an exception-aware adapter to a total one: the
returned value of a non-throwing call, with `false` resp. `none` for a
throw.  Used only under never-throws hypotheses. -/
def pureOfE (A : AdapterE) : Adapter where
  hasIcon id := match A.hasIcon id with | .ok b => b | .error _ => false
  isEmoji s := match A.isEmoji s with | .ok b => b | .error _ => false
  getSVGIcon id := match A.getSVGIcon id with | .ok v => v | .error _ => none

/-- Projection of an exception-aware environment: a throwing
`find` acts like a lookup miss (it is caught and the scan continues,
exactly as on a miss). -/
def pureEnvOfE (env : EnvE) : Env where
  isMobileDevice := env.isMobileDevice
  emojiModule := env.emojiModule.map fun m =>
    ⟨fun c => match m.find c with | .ok v => v | .error _ => none⟩

/-! Concrete settings, adapters and environments used to instantiate the
theorems below on closed inputs (code point 128197 is 📅, 127482 and
127480 are the regional indicators of a flag sequence; small numerals
stand for opaque icon ids and graphic handles). -/

def wS1 : Settings := ⟨[([128197], [9])], true⟩

def wA1 : Adapter :=
  ⟨fun id => id == [9], fun _ => false, fun id => if id == [9] then some 5 else none⟩

def wEnv1 : Env := ⟨false, none⟩

def wS2 : Settings := ⟨[([127482, 127480], [9])], true⟩

def wA2 : Adapter :=
  ⟨fun _ => true, fun s => s == [127482, 127480], fun _ => some 7⟩

def wEnv2 : Env := ⟨false, some ⟨fun _ => some [107]⟩⟩

def wS3 : Settings := ⟨[([99], [9])], true⟩

def wA3 : Adapter :=
  ⟨fun _ => true, fun _ => true, fun id => if id == [9] then some 5 else some 6⟩

def wEnv3 : Env := ⟨false, some ⟨fun _ => some [107]⟩⟩

def wS4 : Settings := ⟨[([101], [9]), ([99], [9])], true⟩

def wA4 : Adapter :=
  ⟨fun id => id == [9], fun _ => false, fun id => if id == [9] then some 5 else none⟩

def wEnv4 : Env := ⟨false, none⟩

def wSE5 : Settings := ⟨[([101], [9])], true⟩

def wAE5 : AdapterE :=
  ⟨fun _ => .error (), fun _ => .ok false, fun _ => .ok none⟩

def wEnvE5 : EnvE := ⟨false, none⟩

def wSE5b : Settings := ⟨[([101], [9])], true⟩

def wAE5b : AdapterE :=
  ⟨fun _ => .ok true, fun _ => .ok true, fun _ => .ok (some 5)⟩

def wEnvE5b : EnvE := ⟨false, some ⟨fun _ => .error ()⟩⟩

def wS6 : Settings := ⟨[], true⟩

def wA6 : Adapter :=
  ⟨fun _ => true, fun s => s == [97] || s == [98] || s == [97, 98], fun _ => some 5⟩

def wS7 : Settings := ⟨[([101], [9])], false⟩

def wA7 : Adapter :=
  ⟨fun _ => true, fun _ => true, fun id => if id == [9] then some 5 else some 6⟩

def wEnv7 : Env := ⟨false, some ⟨fun _ => some [107]⟩⟩

def wS8 : Settings := ⟨[([101], [9])], true⟩

def wA8 : Adapter :=
  ⟨fun _ => true, fun _ => true, fun id => if id == [9] then some 5 else some 6⟩

def wEnv8 : Env := ⟨true, some ⟨fun _ => some [107]⟩⟩

def wS9 : Settings := ⟨[([101], [9])], true⟩

def wA9 : Adapter := ⟨fun _ => true, fun _ => false, fun _ => some 5⟩

def wEnv9 : Env := ⟨false, some ⟨fun _ => none⟩⟩

/-! Helper lemmas about the scan. -/

theorem indexOfCP_append (p s : Str) (e : Nat) (hp : e ∉ p) :
    indexOfCP (p ++ e :: s) e = some p.length := by
  induction p with
  | nil => simp [indexOfCP]
  | cons c rest ih =>
    have hc : c ≠ e := fun h => hp (h ▸ List.mem_cons_self c rest)
    have hr : e ∉ rest := fun h => hp (List.mem_cons_of_mem _ h)
    simp [indexOfCP, hc, ih hr]

theorem indexOfCP_isSome_of_mem (l : Str) (e : Nat) (h : e ∈ l) :
    (indexOfCP l e).isSome = true := by
  induction l with
  | nil => cases h
  | cons c rest ih =>
    by_cases hc : c = e
    · simp [indexOfCP, hc]
    · have hmem : e ∈ rest := by
        rcases List.mem_cons.mp h with h1 | h1
        · exact absurd h1.symm hc
        · exact h1
      simp [indexOfCP, hc, ih hmem]

theorem replaceTextWithIcon_split (p s : Str) (e : Nat) (svg : SvgIcon)
    (hp : e ∉ p) :
    replaceTextWithIcon (p ++ e :: s) e svg = some (p, svg, s) := by
  have htake : (p ++ e :: s).take p.length = p := List.take_left p (e :: s)
  have hdrop : (p ++ e :: s).drop (p.length + 1) = s := by simp
  simp [replaceTextWithIcon, indexOfCP_append p s e hp, htake, hdrop]

theorem replaceTextWithIcon_ne_none (t : Str) (e : Nat) (svg : SvgIcon)
    (h : e ∈ t) : replaceTextWithIcon t e svg ≠ none := by
  have hs := indexOfCP_isSome_of_mem t e h
  unfold replaceTextWithIcon
  cases hi : indexOfCP t e with
  | none => rw [hi] at hs; simp at hs
  | some i => simp

theorem tryCustom_ne_none (S : Settings) (A : Adapter) (t : Str) (e : Nat)
    (iconId : Str) (svg : SvgIcon)
    (hm : lookupMapping S.customEmojiMappings [e] = some iconId)
    (hne : iconId ≠ []) (hhas : A.hasIcon iconId = true)
    (hsvg : A.getSVGIcon iconId = some svg) (hmem : e ∈ t) :
    tryCustom S A t e ≠ none := by
  simpa [tryCustom, hm, hne, hhas, hsvg] using
    replaceTextWithIcon_ne_none t e svg hmem

theorem scanLoop_skip (S : Settings) (A : Adapter) (env : Env) (text : Str)
    (pre rest : List Nat)
    (h : ∀ c ∈ pre, ¬ charSubstitutes S A env text c) :
    scanLoop S A env text (pre ++ rest) = scanLoop S A env text rest := by
  induction pre with
  | nil => rfl
  | cons c cs ih =>
    have hc := h c (List.mem_cons_self c cs)
    have hcs : ∀ x ∈ cs, ¬ charSubstitutes S A env text x :=
      fun x hx => h x (List.mem_cons_of_mem _ hx)
    unfold charSubstitutes at hc
    push_neg at hc
    obtain ⟨h1, h2⟩ := hc
    cases hmob : env.isMobileDevice with
    | true => simp [scanLoop, h1, hmob, ih hcs]
    | false => simp [scanLoop, h1, hmob, h2 hmob, ih hcs]

theorem scanLoop_none (S : Settings) (A : Adapter) (env : Env) (text : Str)
    (l : List Nat)
    (h : ∀ c ∈ l, lookupMapping S.customEmojiMappings [c] = none ∧
        tryHeuristic S A env text c = none) :
    scanLoop S A env text l = none := by
  induction l with
  | nil => rfl
  | cons c cs ih =>
    obtain ⟨h1, h2⟩ := h c (List.mem_cons_self c cs)
    have hcs : ∀ x ∈ cs, _ := fun x hx => h x (List.mem_cons_of_mem _ hx)
    have htc : tryCustom S A text c = none := by simp [tryCustom, h1]
    cases hmob : env.isMobileDevice with
    | true => simp [scanLoop, htc, hmob, ih hcs]
    | false => simp [scanLoop, htc, hmob, h2, ih hcs]

theorem processChildren_append (S : Settings) (A : Adapter) (env : Env)
    (xs ys : List DomNode) :
    processChildren S A env (xs ++ ys) =
      processChildren S A env xs ++ processChildren S A env ys := by
  induction xs with
  | nil => simp [processChildren]
  | cons n rest ih => simp [processChildren, ih]

theorem scanLoop_flag_off (S : Settings) (A : Adapter) (env : Env) (text : Str)
    (l : List Nat) (h : S.enableDefaultIconSearch = false) :
    scanLoop S A env text l = customOnlyScanLoop S A text l := by
  induction l with
  | nil => rfl
  | cons c cs ih =>
    have hth : tryHeuristic S A env text c = none := by simp [tryHeuristic, h]
    cases htc : tryCustom S A text c with
    | some r => simp [scanLoop, customOnlyScanLoop, htc]
    | none =>
      cases hmob : env.isMobileDevice with
      | true => simp [scanLoop, customOnlyScanLoop, htc, hmob, ih]
      | false => simp [scanLoop, customOnlyScanLoop, htc, hmob, hth, ih]

theorem scanLoop_mobile (S : Settings) (A : Adapter) (env : Env) (text : Str)
    (l : List Nat) (h : env.isMobileDevice = true) :
    scanLoop S A env text l = customOnlyScanLoop S A text l := by
  induction l with
  | nil => rfl
  | cons c cs ih =>
    cases htc : tryCustom S A text c with
    | some r => simp [scanLoop, customOnlyScanLoop, htc]
    | none => simp [scanLoop, customOnlyScanLoop, htc, h, ih]

theorem lookupMapping_single_none (M : List (Str × Str)) (c : Nat)
    (h : ∀ kv ∈ M, 2 ≤ kv.1.length) :
    lookupMapping M [c] = none := by
  induction M with
  | nil => rfl
  | cons kv rest ih =>
    obtain ⟨k, v⟩ := kv
    have hk : k ≠ [c] := by
      intro he
      have h2 := h (k, v) (List.mem_cons_self _ _)
      rw [he] at h2
      simp at h2
    simp [lookupMapping, hk, ih (fun x hx => h x (List.mem_cons_of_mem _ hx))]

theorem scanLoop_multikey (S : Settings) (A : Adapter) (env : Env) (text : Str)
    (l : List Nat) (h : ∀ kv ∈ S.customEmojiMappings, 2 ≤ kv.1.length) :
    scanLoop S A env text l =
      scanLoop { S with customEmojiMappings := [] } A env text l := by
  induction l with
  | nil => rfl
  | cons c cs ih =>
    have htc : tryCustom S A text c = none := by
      simp [tryCustom, lookupMapping_single_none _ _ h]
    have htc2 : tryCustom { S with customEmojiMappings := [] } A text c = none := by
      simp [tryCustom, lookupMapping]
    have hth : tryHeuristic { S with customEmojiMappings := [] } A env text c
        = tryHeuristic S A env text c := rfl
    cases hmob : env.isMobileDevice with
    | true => simp [scanLoop, htc, htc2, hmob, ih]
    | false => simp [scanLoop, htc, htc2, hth, hmob, ih]

/-! Helper lemmas about the add-mapping validation. -/

theorem multiEmojiCheck_true_iff (A : Adapter) (l : List Nat) :
    multiEmojiCheck A l true = true ↔
      1 ≤ l.countP (fun c => A.isEmoji [c]) := by
  induction l with
  | nil => simp [multiEmojiCheck]
  | cons c cs ih =>
    by_cases hc : A.isEmoji [c] = true
    · have h1 : multiEmojiCheck A (c :: cs) true = true := by
        simp [multiEmojiCheck, hc]
      have hcnt : (c :: cs).countP (fun x => A.isEmoji [x]) =
          cs.countP (fun x => A.isEmoji [x]) + 1 := by
        simp [List.countP_cons, hc]
      rw [h1, hcnt]
      exact ⟨fun _ => by omega, fun _ => rfl⟩
    · have h1 : multiEmojiCheck A (c :: cs) true = multiEmojiCheck A cs true := by
        simp [multiEmojiCheck, hc]
      have hcnt : (c :: cs).countP (fun x => A.isEmoji [x]) =
          cs.countP (fun x => A.isEmoji [x]) := by
        simp [List.countP_cons, hc]
      rw [h1, hcnt]
      exact ih

theorem multiEmojiCheck_false_iff (A : Adapter) (l : List Nat) :
    multiEmojiCheck A l false = true ↔
      2 ≤ l.countP (fun c => A.isEmoji [c]) := by
  induction l with
  | nil => simp [multiEmojiCheck]
  | cons c cs ih =>
    by_cases hc : A.isEmoji [c] = true
    · have h1 : multiEmojiCheck A (c :: cs) false = multiEmojiCheck A cs true := by
        simp [multiEmojiCheck, hc]
      have hcnt : (c :: cs).countP (fun x => A.isEmoji [x]) =
          cs.countP (fun x => A.isEmoji [x]) + 1 := by
        simp [List.countP_cons, hc]
      rw [h1, hcnt, multiEmojiCheck_true_iff]
      omega
    · have h1 : multiEmojiCheck A (c :: cs) false = multiEmojiCheck A cs false := by
        simp [multiEmojiCheck, hc]
      have hcnt : (c :: cs).countP (fun x => A.isEmoji [x]) =
          cs.countP (fun x => A.isEmoji [x]) := by
        simp [List.countP_cons, hc]
      rw [h1, hcnt]
      exact ih

theorem two_le_length_of_two_mem {α : Type} (l : List α) (a b : α)
    (ha : a ∈ l) (hb : b ∈ l) (hab : a ≠ b) : 2 ≤ l.length := by
  cases l with
  | nil => cases ha
  | cons x xs =>
    rcases List.mem_cons.mp ha with h1 | h1
    · rcases List.mem_cons.mp hb with h2 | h2
      · exact absurd (h1.trans h2.symm) hab
      · have hlen : 1 ≤ xs.length := List.length_pos.mpr (List.ne_nil_of_mem h2)
        simp only [List.length_cons]
        omega
    · have hlen : 1 ≤ xs.length := List.length_pos.mpr (List.ne_nil_of_mem h1)
      simp only [List.length_cons]
      omega

theorem two_le_countP_of_two_mem {α : Type} (p : α → Bool) (l : List α) (a b : α)
    (ha : a ∈ l) (hb : b ∈ l) (hab : a ≠ b) (hpa : p a = true) (hpb : p b = true) :
    2 ≤ l.countP p := by
  rw [List.countP_eq_length_filter]
  exact two_le_length_of_two_mem _ a b
    (List.mem_filter.mpr ⟨ha, hpa⟩) (List.mem_filter.mpr ⟨hb, hpb⟩) hab

/-! Helper lemmas linking the exception-aware scan to the total scan
when the adapter calls made outside any `try` block never throw. -/

theorem tryCustomE_pure (S : Settings) (A : AdapterE) (text : Str) (c : Nat)
    (hH : ∀ id, ∃ b, A.hasIcon id = .ok b)
    (hG : ∀ id, ∃ v, A.getSVGIcon id = .ok v) :
    tryCustomE S A text c = .ok (tryCustom S (pureOfE A) text c) := by
  unfold tryCustomE tryCustom
  cases hl : lookupMapping S.customEmojiMappings [c] with
  | none => rfl
  | some iconId =>
    by_cases hi : iconId = []
    · simp [hi]
    · obtain ⟨b, hb⟩ := hH iconId
      obtain ⟨v, hv⟩ := hG iconId
      cases b with
      | false => simp [hi, hb, pureOfE]
      | true =>
        cases v with
        | none => simp [hi, hb, hv, pureOfE]
        | some svg => simp [hi, hb, hv, pureOfE]

theorem tryHeuristicE_pure (S : Settings) (A : AdapterE) (env : EnvE)
    (text : Str) (c : Nat)
    (hH : ∀ id, ∃ b, A.hasIcon id = .ok b)
    (hE : ∀ s2, ∃ b, A.isEmoji s2 = .ok b)
    (hG : ∀ id, ∃ v, A.getSVGIcon id = .ok v) :
    tryHeuristicE S A env text c =
      .ok (tryHeuristic S (pureOfE A) (pureEnvOfE env) text c) := by
  unfold tryHeuristicE tryHeuristic
  cases hf : S.enableDefaultIconSearch with
  | false => simp
  | true =>
    obtain ⟨be, hbe⟩ := hE [c]
    cases be with
    | false => simp [hbe, pureOfE]
    | true =>
      simp only [hbe, pureOfE, Bool.and_self, if_true]
      unfold heuristicTryBlock heuristicBody pureEnvOfE
      cases henv : env.emojiModule with
      | none => simp
      | some m =>
        cases hfind : m.find c with
        | error e => simp [hfind]
        | ok kopt =>
          cases kopt with
          | none => simp [hfind]
          | some key =>
            obtain ⟨b2, hb2⟩ := hH (lucMarker ++ key)
            cases b2 with
            | false => simp [hfind, hb2]
            | true =>
              obtain ⟨v2, hv2⟩ := hG (lucMarker ++ key)
              cases v2 with
              | none => simp [hfind, hb2, hv2]
              | some svg => simp [hfind, hb2, hv2]

theorem scanLoopE_pure (S : Settings) (A : AdapterE) (env : EnvE) (text : Str)
    (l : List Nat)
    (hH : ∀ id, ∃ b, A.hasIcon id = .ok b)
    (hE : ∀ s2, ∃ b, A.isEmoji s2 = .ok b)
    (hG : ∀ id, ∃ v, A.getSVGIcon id = .ok v) :
    scanLoopE S A env text l =
      .ok (scanLoop S (pureOfE A) (pureEnvOfE env) text l) := by
  induction l with
  | nil => rfl
  | cons c cs ih =>
    have hmob : (pureEnvOfE env).isMobileDevice = env.isMobileDevice := rfl
    simp only [scanLoopE, scanLoop, tryCustomE_pure S A text c hH hG]
    cases htc : tryCustom S (pureOfE A) text c with
    | some r => simp
    | none =>
      simp only [hmob]
      cases hm : env.isMobileDevice with
      | true => simp [ih]
      | false =>
        simp only [tryHeuristicE_pure S A env text c hH hE hG]
        cases hth : tryHeuristic S (pureOfE A) (pureEnvOfE env) text c with
        | some r => simp
        | none => simp [ih]

/-- Core substitution lemma: when no character of `p` is substituted and the
code point `e` has a fully resolving custom mapping, scanning the leaf
`p ++ e :: s` yields the split `(p, svg, s)`. -/
theorem processTextLeaf_custom (S : Settings) (A : Adapter) (env : Env)
    (p s iconId : Str) (e : Nat) (svg : SvgIcon)
    (hp : ∀ c ∈ p, ¬ charSubstitutes S A env (p ++ e :: s) c)
    (hm : lookupMapping S.customEmojiMappings [e] = some iconId)
    (hne : iconId ≠ [])
    (hhas : A.hasIcon iconId = true)
    (hsvg : A.getSVGIcon iconId = some svg) :
    processTextLeaf S A env (p ++ e :: s) = some (p, svg, s) := by
  have hmemt : e ∈ p ++ e :: s := by simp
  have hsub : charSubstitutes S A env (p ++ e :: s) e :=
    Or.inl (tryCustom_ne_none S A _ e iconId svg hm hne hhas hsvg hmemt)
  have hep : e ∉ p := fun hmem => hp e hmem hsub
  have htc : tryCustom S A (p ++ e :: s) e = some (p, svg, s) := by
    simp [tryCustom, hm, hne, hhas, hsvg, replaceTextWithIcon_split p s e svg hep]
  unfold processTextLeaf
  rw [scanLoop_skip S A env _ p (e :: s) hp]
  simp [scanLoop, htc]

/-- C1: for every text leaf whose content is prefix-`e`-suffix, where `e` is
an emoji code point with a custom mapping to icon id `iconId`, the adapter
confirms `iconId` exists and resolves it to a graphic, and the scan does not
substitute any character of the prefix, the engine replaces the leaf with
exactly three ordered units at the leaf's position — text prefix, the
resolved graphic, text suffix — so the concatenation of the text units is
the original text with the first occurrence of `e` removed. -/
theorem c1_custom_replacement_units (S : Settings) (A : Adapter) (env : Env)
    (p s iconId : Str) (e : Nat) (svg : SvgIcon)
    (hp : ∀ c ∈ p, ¬ charSubstitutes S A env (p ++ e :: s) c)
    (hm : lookupMapping S.customEmojiMappings [e] = some iconId)
    (hne : iconId ≠ [])
    (hhas : A.hasIcon iconId = true)
    (hsvg : A.getSVGIcon iconId = some svg) :
    processNode S A env (.text (p ++ e :: s)) =
      [.text p, .graphic svg, .text s] := by
  have hleaf := processTextLeaf_custom S A env p s iconId e svg hp hm hne hhas hsvg
  simp [processNode, hleaf]

/-- C1 witness: the leaf with code points 72, 128197 (a calendar emoji), 33
under the mapping 128197 to icon id [9] becomes text [72], the graphic,
text [33]. -/
theorem c1_witness :
    processNode wS1 wA1 wEnv1 (.text ([72] ++ 128197 :: [33])) =
      [.text [72], .graphic 5, .text [33]] :=
  c1_custom_replacement_units wS1 wA1 wEnv1 [72] [33] [9] 128197 5
    (by decide) (by decide) (by decide) (by decide) (by decide)

/-- C2 counterexample: a custom mapping keyed on the two-code-point flag
grapheme (regional indicators 127482, 127480) with an existing, resolving
icon substitutes nothing in the leaf consisting of exactly that grapheme:
the loop iterates code points, and neither single regional indicator equals
the two-code-point key, contradicting the claim that such a mapping matches
and is substituted. -/
theorem c2_counterexample :
    lookupMapping wS2.customEmojiMappings [127482, 127480] = some [9] ∧
    wA2.hasIcon [9] = true ∧
    wA2.getSVGIcon [9] = some 7 ∧
    wA2.isEmoji [127482, 127480] = true ∧
    processTextLeaf wS2 wA2 wEnv2 [127482, 127480] = none := by
  decide

/-- C2 (amended): the engine iterates a text leaf by Unicode code points
(not grapheme clusters), so a custom mapping keyed on a multi-code-point
emoji grapheme never matches any scanned character: if every mapping key
has at least two code points, scanning behaves exactly as with an empty
mapping table. -/
theorem c2_code_point_iteration (S : Settings) (A : Adapter) (env : Env)
    (t : Str) (h : ∀ kv ∈ S.customEmojiMappings, 2 ≤ kv.1.length) :
    processTextLeaf S A env t =
      processTextLeaf { S with customEmojiMappings := [] } A env t :=
  scanLoop_multikey S A env t t h

/-- C2 witness for the amended statement, at the flag-grapheme mapping. -/
theorem c2_amended_witness :
    processTextLeaf wS2 wA2 wEnv2 [127482, 127480] =
      processTextLeaf { wS2 with customEmojiMappings := [] } wA2 wEnv2
        [127482, 127480] :=
  c2_code_point_iteration wS2 wA2 wEnv2 [127482, 127480] (by decide)

/-- C3: when a scanned character has a custom mapping whose icon the adapter
confirms exists and resolves, and the heuristic path would resolve the same
character to a different icon, the substitution uses the custom-mapped icon:
the custom path is consulted first, and having consumed the character, the
heuristic result is not used. -/
theorem c3_custom_priority (S : Settings) (A : Adapter) (env : Env)
    (p s iconId b2 a2 : Str) (e : Nat) (svg heurIcon : SvgIcon)
    (hp : ∀ c ∈ p, ¬ charSubstitutes S A env (p ++ e :: s) c)
    (hm : lookupMapping S.customEmojiMappings [e] = some iconId)
    (hne : iconId ≠ [])
    (hhas : A.hasIcon iconId = true)
    (hsvg : A.getSVGIcon iconId = some svg)
    (_hheur : tryHeuristic S A env (p ++ e :: s) e = some (b2, heurIcon, a2))
    (_hdiff : heurIcon ≠ svg) :
    processTextLeaf S A env (p ++ e :: s) = some (p, svg, s) :=
  processTextLeaf_custom S A env p s iconId e svg hp hm hne hhas hsvg

/-- C3 witness: code point 99 has a custom mapping to icon id [9] (graphic 5)
while the heuristic path would resolve it to the luc-prefixed icon
(graphic 6); the scan substitutes graphic 5. -/
theorem c3_witness :
    processTextLeaf wS3 wA3 wEnv3 ([] ++ 99 :: []) = some ([], 5, []) :=
  c3_custom_priority wS3 wA3 wEnv3 [] [] [9] [] [] 99 5 6
    (by decide) (by decide) (by decide) (by decide) (by decide)
    (by decide) (by decide)

/-- C4: at most one substitution is performed per original text leaf per
pass: after the first successful replacement the scan of that leaf stops,
and the suffix is emitted verbatim as a new leaf that is not rescanned —
even when it still contains a character the scan would substitute. -/
theorem c4_single_substitution_per_leaf (S : Settings) (A : Adapter) (env : Env)
    (p s iconId : Str) (e : Nat) (svg : SvgIcon)
    (hp : ∀ c ∈ p, ¬ charSubstitutes S A env (p ++ e :: s) c)
    (hm : lookupMapping S.customEmojiMappings [e] = some iconId)
    (hne : iconId ≠ [])
    (hhas : A.hasIcon iconId = true)
    (hsvg : A.getSVGIcon iconId = some svg)
    (_hrest : ∃ c ∈ s, charSubstitutes S A env (p ++ e :: s) c) :
    processNode S A env (.text (p ++ e :: s)) =
        [.text p, .graphic svg, .text s] ∧
      (processNode S A env (.text (p ++ e :: s))).countP isGraphicNode = 1 := by
  have hleaf := processTextLeaf_custom S A env p s iconId e svg hp hm hne hhas hsvg
  constructor
  · simp [processNode, hleaf]
  · simp [processNode, hleaf, isGraphicNode, List.countP_cons]

/-- C4 witness: in the leaf [101, 99] both code points have fully resolving
custom mappings; only the first is replaced, and the suffix [99] survives
as verbatim text. -/
theorem c4_witness :
    processNode wS4 wA4 wEnv4 (.text ([] ++ 101 :: [99])) =
        [.text [], .graphic 5, .text [99]] ∧
      (processNode wS4 wA4 wEnv4 (.text ([] ++ 101 :: [99]))).countP
        isGraphicNode = 1 :=
  c4_single_substitution_per_leaf wS4 wA4 wEnv4 [] [99] [9] 101 5
    (by decide) (by decide) (by decide) (by decide) (by decide) (by decide)

/-- C5 counterexample: with an adapter whose `hasIcon` throws, scanning a
leaf whose first character has a custom mapping aborts with the propagated
exception — the remaining character is never scanned — refuting the claim
that every per-character resolution error is caught and contained. -/
theorem c5_counterexample :
    ¬ ∀ (S : Settings) (A : AdapterE) (env : EnvE) (t : Str),
        ∃ r, processTextLeafE S A env t = .ok r := by
  intro h
  obtain ⟨r, hr⟩ := h wSE5 wAE5 wEnvE5 [101, 102]
  have herr : processTextLeafE wSE5 wAE5 wEnvE5 [101, 102] = .error () := rfl
  rw [herr] at hr
  exact Except.noConfusion hr

/-- C5 (amended): only errors thrown inside the heuristic `try` block
(metadata lookup, heuristic icon check and fetch, failed import) are caught
and contained at the character level; errors from the adapter calls made
outside the `try` (the custom-mapping path and the emoji-detection guard)
propagate and abort the leaf scan.  Hence, whenever those outside calls
never throw, the exception-aware scan never aborts and computes exactly the
total scan, a throwing metadata lookup acting as a lookup miss. -/
theorem c5_heuristic_errors_contained (S : Settings) (A : AdapterE) (env : EnvE)
    (t : Str)
    (hH : ∀ id, ∃ b, A.hasIcon id = .ok b)
    (hE : ∀ s2, ∃ b, A.isEmoji s2 = .ok b)
    (hG : ∀ id, ∃ v, A.getSVGIcon id = .ok v) :
    processTextLeafE S A env t =
      .ok (processTextLeaf S (pureOfE A) (pureEnvOfE env) t) :=
  scanLoopE_pure S A env t t hH hE hG

/-- C5 witness: the metadata lookup throws at code point 100; the scan
continues and the custom mapping substitutes at code point 101. -/
theorem c5_witness :
    processTextLeafE wSE5b wAE5b wEnvE5b [100, 101] =
        .ok (processTextLeaf wSE5b (pureOfE wAE5b) (pureEnvOfE wEnvE5b)
          [100, 101]) ∧
      processTextLeafE wSE5b wAE5b wEnvE5b [100, 101] =
        .ok (some ([100], 5, [])) :=
  ⟨c5_heuristic_errors_contained wSE5b wAE5b wEnvE5b [100, 101]
      (fun _ => ⟨true, rfl⟩) (fun _ => ⟨true, rfl⟩) (fun _ => ⟨some 5, rfl⟩),
    rfl⟩

/-- C6: the add-mapping action rejects an empty emoji or icon field, an
input the adapter does not recognize as an emoji, and an input containing
two distinct emoji code points — each with a user notice, no mutation of
the mapping table and nothing persisted; and whenever an input is added
(persisted), it is a single recognized emoji per the adapter: the whole
input passes `isEmoji` and at most one of its code points is an emoji. -/
theorem c6_single_emoji_keys (S : Settings) (A : Adapter) (emoji iconId : Str) :
    ((emoji = [] ∨ iconId = []) → addRejected S A emoji iconId) ∧
    (A.isEmoji emoji = false → addRejected S A emoji iconId) ∧
    (∀ c1 c2 : Nat, c1 ∈ emoji → c2 ∈ emoji → c1 ≠ c2 →
      A.isEmoji [c1] = true → A.isEmoji [c2] = true →
      addRejected S A emoji iconId) ∧
    ((addMappingAction S A emoji iconId).persisted = true →
      A.isEmoji emoji = true ∧ multiEmojiCheck A emoji false = false ∧
        emoji ≠ [] ∧
        (addMappingAction S A emoji iconId).settings.customEmojiMappings =
          insertMapping S.customEmojiMappings emoji iconId) := by
  by_cases h1 : emoji = [] ∨ iconId = []
  · have hact : addMappingAction S A emoji iconId =
        ⟨S, some UINotice.bothFieldsRequired, false⟩ := by
      simp [addMappingAction, h1]
    have hrej : addRejected S A emoji iconId := by
      simp [addRejected, hact]
    refine ⟨fun _ => hrej, fun _ => hrej, fun _ _ _ _ _ _ _ => hrej,
      fun hper => ?_⟩
    rw [hact] at hper
    simp at hper
  · by_cases h2 : A.isEmoji emoji = false
    · have hact : addMappingAction S A emoji iconId =
          ⟨S, some UINotice.invalidEmoji, false⟩ := by
        simp [addMappingAction, h1, h2]
      have hrej : addRejected S A emoji iconId := by
        simp [addRejected, hact]
      refine ⟨fun _ => hrej, fun _ => hrej, fun _ _ _ _ _ _ _ => hrej,
        fun hper => ?_⟩
      rw [hact] at hper
      simp at hper
    · by_cases h3 : multiEmojiCheck A emoji false = true
      · have hact : addMappingAction S A emoji iconId =
            ⟨S, some UINotice.multipleEmoji, false⟩ := by
          simp [addMappingAction, h1, h2, h3]
        have hrej : addRejected S A emoji iconId := by
          simp [addRejected, hact]
        refine ⟨fun _ => hrej, fun _ => hrej, fun _ _ _ _ _ _ _ => hrej,
          fun hper => ?_⟩
        rw [hact] at hper
        simp at hper
      · have hact : addMappingAction S A emoji iconId =
            ⟨{ S with customEmojiMappings :=
                insertMapping S.customEmojiMappings emoji iconId },
              none, true⟩ := by
          simp [addMappingAction, h1, h2, h3]
        refine ⟨fun hc => absurd hc h1, fun hc => absurd hc h2,
          fun c1 c2 hm1 hm2 hne hp1 hp2 => ?_, fun _ => ?_⟩
        · exact absurd ((multiEmojiCheck_false_iff A emoji).mpr
            (two_le_countP_of_two_mem _ emoji c1 c2 hm1 hm2 hne hp1 hp2)) h3
        · have hemoji : A.isEmoji emoji = true := by
            cases hb : A.isEmoji emoji with
            | false => exact absurd hb h2
            | true => rfl
          have hmec : multiEmojiCheck A emoji false = false := by
            cases hb : multiEmojiCheck A emoji false with
            | true => exact absurd hb h3
            | false => rfl
          exact ⟨hemoji, hmec, fun he => h1 (Or.inl he), by rw [hact]⟩

/-- C6 witness: under an adapter recognizing 97, 98 and the pair [97, 98]
as emoji, the empty input, the non-emoji input [99], and the two-emoji
input [97, 98] are all rejected without mutation, while the single emoji
[97] is added to the table. -/
theorem c6_witness :
    addRejected wS6 wA6 [] [5] ∧
    addRejected wS6 wA6 [99] [5] ∧
    addRejected wS6 wA6 [97, 98] [5] ∧
    (addMappingAction wS6 wA6 [97] [5]).settings.customEmojiMappings =
      insertMapping wS6.customEmojiMappings [97] [5] :=
  ⟨(c6_single_emoji_keys wS6 wA6 [] [5]).1 (Or.inl rfl),
    (c6_single_emoji_keys wS6 wA6 [99] [5]).2.1 (by decide),
    (c6_single_emoji_keys wS6 wA6 [97, 98] [5]).2.2.1 97 98 (by decide)
      (by decide) (by decide) (by decide) (by decide),
    ((c6_single_emoji_keys wS6 wA6 [97] [5]).2.2.2 (by decide)).2.2.2⟩

/-- C7: when `enableDefaultIconSearch` is false, scanning any text leaf
coincides with the custom-mappings-only scan — which never consults the
heuristic path, the emoji detector, or the metadata module — so no
heuristic substitution occurs for any character while custom mappings
apply unchanged. -/
theorem c7_flag_off_custom_only (S : Settings) (A : Adapter) (env : Env)
    (t : Str) (h : S.enableDefaultIconSearch = false) :
    processTextLeaf S A env t = customOnlyLeaf S A t :=
  scanLoop_flag_off S A env t t h

/-- C7 witness: flag off, on a desktop run where the heuristic would
resolve code point 100; only the custom mapping of 101 applies. -/
theorem c7_witness :
    processTextLeaf wS7 wA7 wEnv7 [100, 101] =
        customOnlyLeaf wS7 wA7 [100, 101] ∧
      customOnlyLeaf wS7 wA7 [100, 101] = some ([100], 5, []) :=
  ⟨c7_flag_off_custom_only wS7 wA7 wEnv7 [100, 101] rfl, by decide⟩

/-- C8: on a mobile run the heuristic path never executes for any
character — scanning any text leaf coincides with the custom-mappings-only
scan, which never touches the emoji module (so no import is attempted) —
while custom-mapping substitution succeeds exactly as on desktop. -/
theorem c8_mobile_custom_only (S : Settings) (A : Adapter) (env : Env)
    (t : Str) (h : env.isMobileDevice = true) :
    processTextLeaf S A env t = customOnlyLeaf S A t :=
  scanLoop_mobile S A env t t h

/-- C8 witness: on mobile, with the heuristic fully able to resolve code
point 100 (emoji detector, module and luc icon all available), only the
custom mapping of 101 is substituted. -/
theorem c8_witness :
    processTextLeaf wS8 wA8 wEnv8 [100, 101] =
        customOnlyLeaf wS8 wA8 [100, 101] ∧
      customOnlyLeaf wS8 wA8 [100, 101] = some ([100], 5, []) :=
  ⟨c8_mobile_custom_only wS8 wA8 wEnv8 [100, 101] rfl, by decide⟩

/-- C9: a text leaf none of whose characters has a custom mapping or a
heuristic substitution is left unchanged by the engine: same text content,
same leaf, same position among its (processed) siblings. -/
theorem c9_nonmatching_leaf_unchanged (S : Settings) (A : Adapter) (env : Env)
    (s : Str) (cs1 cs2 : List DomNode)
    (h : ∀ c ∈ s, lookupMapping S.customEmojiMappings [c] = none ∧
        tryHeuristic S A env s c = none) :
    processNode S A env (.text s) = [.text s] ∧
    processNode S A env (.elem (cs1 ++ .text s :: cs2)) =
      [.elem (processChildren S A env cs1 ++
        .text s :: processChildren S A env cs2)] := by
  have hleaf : processTextLeaf S A env s = none := scanLoop_none S A env s s h
  have h1 : processNode S A env (.text s) = [.text s] := by
    simp [processNode, hleaf]
  refine ⟨h1, ?_⟩
  simp [processNode, processChildren_append, processChildren, hleaf]

/-- C9 witness: the leaf [120, 121] matches nothing and survives verbatim
in place between its siblings. -/
theorem c9_witness :
    processNode wS9 wA9 wEnv9 (.text [120, 121]) = [.text [120, 121]] ∧
    processNode wS9 wA9 wEnv9
        (.elem ([.text [104]] ++ .text [120, 121] :: [.graphic 3])) =
      [.elem (processChildren wS9 wA9 wEnv9 [.text [104]] ++
        .text [120, 121] :: processChildren wS9 wA9 wEnv9 [.graphic 3])] :=
  c9_nonmatching_leaf_unchanged wS9 wA9 wEnv9 [120, 121]
    [.text [104]] [.graphic 3] (by decide)

/-- C10: when the icon service is unavailable at load (`getApi()` returns
null), the layout-ready callback opens the missing-dependency modal exactly
once and returns before registering the markdown post-processor: no
processor is registered for the session, and every render pass leaves its
input unchanged — substitution never runs on any input. -/
theorem c10_missing_service_disables (S : Settings) (env : Env) :
    (onloadRegister S env none).processor = none ∧
    (onloadRegister S env none).modalShownCount = 1 ∧
    ∀ n, renderPass (onloadRegister S env none) n = [n] :=
  ⟨rfl, rfl, fun _ => rfl⟩

end EmojiReplacer
